import Mathlib

/-
Shallow embedding of the MultiversX smart contract in src/src/ping_pong.rs.

Modelling conventions:
- `ManagedAddress` and `EgldOrEsdtTokenIdentifier` are modelled as `Nat`
  (only equality on them is used by the contract); the EGLD token identifier
  is the distinguished constant `egld`.
- `BigUint` (the ping amount) is modelled as `Nat` (arbitrary precision,
  unsigned, no wrap-around).
- `u64` values (timestamps, durations) are modelled as `Nat`, with every
  `u64` addition performed modulo `u64Mod = 2 ^ 64` (release-build wrapping
  semantics); `u64` comparison and the guarded subtraction in
  `get_time_to_pong` never wrap and are plain `Nat` operations.
- A `SingleValueMapper` keyed per address (`userPingTimestamp`) is modelled
  as `Nat → Option Nat`: `none` is an empty mapper slot (`is_empty` true),
  `set` writes `some v`, `clear` writes `none`.
- Each endpoint takes the persistent `State` plus a call context `Ctx`
  (caller, block timestamp, attached payment) supplied by the host.
  A `require!` failure aborts the whole call and the host rolls back every
  write, so an endpoint is a function into `Except SCError _`: `.error e`
  is a full-call abort leaving the persistent state unchanged, `.ok`
  carries the committed post-state.
- The body of a successful `ping`/`pong` call is represented as the ordered
  list of primitive effects it performs (`Op`): storage writes, the asset
  transfer, and event emission, in source order; the post-state is obtained
  by running that list. This preserves the source's intra-call sequencing,
  which claim C2 is about.
-/

namespace PingPongContract

def u64Mod : Nat := 2 ^ 64

/-- EGLD token identifier, the default payment token of `init`
(`EgldOrEsdtTokenIdentifier::egld()`). -/
def egld : Nat := 0

/-- The error enum of the contract (`PingPongError` in the source). -/
inductive PingPongError
  | AlreadyPinged
  | NoPingFound
  | InvalidPaymentToken
  | IncorrectPingAmount
  | CannotPongBeforeDeadline
  | DurationCannotBeZero
  | PingAmountCannotBeZero
  | OnlyOwnerCanPerformThisAction
  deriving DecidableEq, Repr

/-- Host-level error type (`SCError` in the source; only the
`Custom(code)` variant is used by this contract). -/
inductive SCError
  | Custom (code : Nat)
  deriving DecidableEq, Repr

/-- The `From<PingPongError> for SCError` conversion of the source. -/
def PingPongError.toSCError : PingPongError → SCError
  | .AlreadyPinged => .Custom 0
  | .NoPingFound => .Custom 1
  | .InvalidPaymentToken => .Custom 2
  | .IncorrectPingAmount => .Custom 3
  | .CannotPongBeforeDeadline => .Custom 4
  | .DurationCannotBeZero => .Custom 5
  | .PingAmountCannotBeZero => .Custom 6
  | .OnlyOwnerCanPerformThisAction => .Custom 7

/-- Persistent contract storage: one field per `#[storage_mapper]` of the
source. -/
structure State where
  acceptedPaymentTokenId : Nat
  pingAmount : Nat
  durationInSeconds : Nat
  userPingTimestamp : Nat → Option Nat
  paused : Bool
  owner : Nat

/-- Per-call context supplied by the host: `get_caller()`,
`get_block_timestamp()`, and the attached payment
(`egld_or_single_fungible_esdt()`). -/
structure Ctx where
  caller : Nat
  blockTimestamp : Nat
  paymentToken : Nat
  paymentAmount : Nat

/-- Write of one slot of the per-address `userPingTimestamp` mapper
(`SingleValueMapper::set`). -/
def setLockEntry (m : Nat → Option Nat) (a v : Nat) : Nat → Option Nat :=
  fun x => if x = a then some v else m x

/-- Clear of one slot of the per-address `userPingTimestamp` mapper
(`SingleValueMapper::clear`). -/
def clearLockEntry (m : Nat → Option Nat) (a : Nat) : Nat → Option Nat :=
  fun x => if x = a then none else m x

/-- Primitive effects a call body performs, in source order: ledger writes,
the asset transfer of `send().direct`, and event emissions. -/
inductive Op
  | setLock (addr ts : Nat)
  | clearLock (addr : Nat)
  | transfer (dest token nonce amount : Nat)
  | pingEvent (user : Nat)
  | pongEvent (user : Nat)
  deriving DecidableEq, Repr

/-- Effect of one primitive `Op` on contract storage: ledger writes mutate
the mapper; the transfer and the events do not touch contract storage. -/
def applyOp (s : State) : Op → State
  | .setLock a t => { s with userPingTimestamp := setLockEntry s.userPingTimestamp a t }
  | .clearLock a => { s with userPingTimestamp := clearLockEntry s.userPingTimestamp a }
  | .transfer _ _ _ _ => s
  | .pingEvent _ => s
  | .pongEvent _ => s

/-- Run a list of primitive effects left to right. -/
def runOps (s : State) (ops : List Op) : State :=
  ops.foldl applyOp s

/-- Asset transfers contained in an effect list, in order, as
(destination, token, nonce, amount) tuples. -/
def transfersOf : List Op → List (Nat × Nat × Nat × Nat)
  | [] => []
  | Op.transfer dest tok n amt :: rest => (dest, tok, n, amt) :: transfersOf rest
  | _ :: rest => transfersOf rest

/-- View `didUserPing`: the caller's mapper slot is non-empty. -/
def did_user_ping (s : State) (address : Nat) : Bool :=
  (s.userPingTimestamp address).isSome

/-- View `getPongEnableTimestamp`: `0` when the address never pinged,
otherwise stored ping timestamp plus configured duration (u64 addition). -/
def get_pong_enable_timestamp (s : State) (address : Nat) : Nat :=
  if ¬ did_user_ping s address then 0
  else ((s.userPingTimestamp address).getD 0 + s.durationInSeconds) % u64Mod

/-- View `getTimeToPong`: `none` when the address never pinged, `some 0`
once eligible, otherwise the remaining seconds. -/
def get_time_to_pong (s : State) (now : Nat) (address : Nat) : Option Nat :=
  if ¬ did_user_ping s address then none
  else
    let pong_enable_timestamp := get_pong_enable_timestamp s address
    if now ≥ pong_enable_timestamp then some 0
    else some (pong_enable_timestamp - now)

/-- View `getAcceptedPaymentToken`. -/
def get_accepted_payment_token (s : State) : Nat :=
  s.acceptedPaymentTokenId

/-- View `getPingAmount`. -/
def get_ping_amount (s : State) : Nat :=
  s.pingAmount

/-- View `getDurationTimestamp`. -/
def get_duration_timestamp (s : State) : Nat :=
  s.durationInSeconds

/-- View `getUserPingTimestamp` (`SingleValueMapper::get` returns the
default `0` on an empty slot). -/
def get_user_ping_timestamp (s : State) (address : Nat) : Nat :=
  (s.userPingTimestamp address).getD 0

/-- View `getPaused`. -/
def get_paused (s : State) : Bool :=
  s.paused

/-- View `getOwner`. -/
def get_owner (s : State) : Nat :=
  s.owner

/-- Endpoint `init`: validates the two parameters, persists the
configuration (token defaulting to EGLD), records the caller as owner, and
starts unpaused. Runs once at deployment on fresh storage, so the party
ledger of the resulting state is empty. The source writes `ping_amount`
before checking `duration_in_seconds`, but a failed `require!` rolls back
every prior write, so the aborting cases carry no state. -/
def init (ctx : Ctx) (ping_amount : Nat) (duration_in_seconds : Nat)
    (opt_token_id : Option Nat) : Except SCError State :=
  if ¬ ping_amount > 0 then
    Except.error PingPongError.PingAmountCannotBeZero.toSCError
  else if ¬ duration_in_seconds > 0 then
    Except.error PingPongError.DurationCannotBeZero.toSCError
  else
    let token_id := match opt_token_id with
      | some t => t
      | none => egld
    Except.ok
      { acceptedPaymentTokenId := token_id
        pingAmount := ping_amount
        durationInSeconds := duration_in_seconds
        userPingTimestamp := fun _ => none
        paused := false
        owner := ctx.caller }

/-- Endpoint `upgrade` (parameter retuning): owner-only, then the same
zero-checks as `init`; overwrites `pingAmount` and `durationInSeconds`,
leaving token, ledger, pause flag and owner untouched. -/
def upgrade (s : State) (ctx : Ctx) (ping_amount : Nat)
    (duration_in_seconds : Nat) : Except SCError State :=
  if ¬ ctx.caller = s.owner then
    Except.error PingPongError.OnlyOwnerCanPerformThisAction.toSCError
  else if ¬ ping_amount > 0 then
    Except.error PingPongError.PingAmountCannotBeZero.toSCError
  else if ¬ duration_in_seconds > 0 then
    Except.error PingPongError.DurationCannotBeZero.toSCError
  else
    Except.ok { s with pingAmount := ping_amount
                       durationInSeconds := duration_in_seconds }

/-- Effect list of a successful `ping` call body, in source order: store
the caller's ping timestamp, then emit `pingEvent`. -/
def pingOps (ctx : Ctx) : List Op :=
  [Op.setLock ctx.caller ctx.blockTimestamp, Op.pingEvent ctx.caller]

/-- Endpoint `ping` (deposit): pause gate, then payment token check, then
payment amount check, then no-active-lock check, in source order; on
success records the current block timestamp for the caller and emits the
deposit event. The pause rejection is `SCError::Custom(8)` in the source
("Contract is paused"). -/
def ping (s : State) (ctx : Ctx) : Except SCError (State × List Op) :=
  if s.paused then Except.error (SCError.Custom 8)
  else if ¬ ctx.paymentToken = s.acceptedPaymentTokenId then
    Except.error PingPongError.InvalidPaymentToken.toSCError
  else if ¬ ctx.paymentAmount = s.pingAmount then
    Except.error PingPongError.IncorrectPingAmount.toSCError
  else if did_user_ping s ctx.caller then
    Except.error PingPongError.AlreadyPinged.toSCError
  else
    Except.ok (runOps s (pingOps ctx), pingOps ctx)

/-- Effect list of a successful `pong` call body, in source order: clear
the caller's ledger slot first, then (reading token and amount from the
storage as it stands after the clear, as the source does) transfer the
configured amount of the configured token to the caller, then emit
`pongEvent`. -/
def pongOps (s : State) (ctx : Ctx) : List Op :=
  let s1 := applyOp s (Op.clearLock ctx.caller)
  [Op.clearLock ctx.caller,
   Op.transfer ctx.caller s1.acceptedPaymentTokenId 0 s1.pingAmount,
   Op.pongEvent ctx.caller]

/-- Endpoint `pong` (withdraw): pause gate, then active-lock check, then
deadline check against `get_pong_enable_timestamp`; on success runs the
`pongOps` effect list (clear ledger entry before transferring). -/
def pong (s : State) (ctx : Ctx) : Except SCError (State × List Op) :=
  if s.paused then Except.error (SCError.Custom 8)
  else if ¬ did_user_ping s ctx.caller then
    Except.error PingPongError.NoPingFound.toSCError
  else if ¬ ctx.blockTimestamp ≥ get_pong_enable_timestamp s ctx.caller then
    Except.error PingPongError.CannotPongBeforeDeadline.toSCError
  else
    Except.ok (runOps s (pongOps s ctx), pongOps s ctx)

/-- Endpoint `pause`: owner-only, sets the pause flag. -/
def pause (s : State) (ctx : Ctx) : Except SCError State :=
  if ¬ ctx.caller = s.owner then
    Except.error PingPongError.OnlyOwnerCanPerformThisAction.toSCError
  else
    Except.ok { s with paused := true }

/-- Endpoint `unpause`: owner-only, clears the pause flag. -/
def unpause (s : State) (ctx : Ctx) : Except SCError State :=
  if ¬ ctx.caller = s.owner then
    Except.error PingPongError.OnlyOwnerCanPerformThisAction.toSCError
  else
    Except.ok { s with paused := false }

/-- Endpoint `extend_ping_duration`: pause gate, active-lock check,
positive-extension check (`SCError::Custom(9)` in the source), then stores
`get_pong_enable_timestamp(caller) + additional_seconds` into the caller's
`userPingTimestamp` slot, exactly as the source does. -/
def extend_ping_duration (s : State) (ctx : Ctx)
    (additional_seconds : Nat) : Except SCError State :=
  if s.paused then Except.error (SCError.Custom 8)
  else if ¬ did_user_ping s ctx.caller then
    Except.error PingPongError.NoPingFound.toSCError
  else if ¬ additional_seconds > 0 then Except.error (SCError.Custom 9)
  else
    let current_pong_enable_timestamp := get_pong_enable_timestamp s ctx.caller
    let new_pong_enable_timestamp :=
      (current_pong_enable_timestamp + additional_seconds) % u64Mod
    Except.ok
      { s with userPingTimestamp :=
          setLockEntry s.userPingTimestamp ctx.caller new_pong_enable_timestamp }

/-- One committed state transition performed by any mutating endpoint. -/
inductive Step : State → State → Prop
  | upgrade (s s' : State) (ctx : Ctx) (a d : Nat) :
      upgrade s ctx a d = Except.ok s' → Step s s'
  | ping (s s' : State) (ctx : Ctx) (ops : List Op) :
      ping s ctx = Except.ok (s', ops) → Step s s'
  | pong (s s' : State) (ctx : Ctx) (ops : List Op) :
      pong s ctx = Except.ok (s', ops) → Step s s'
  | pause (s s' : State) (ctx : Ctx) :
      pause s ctx = Except.ok s' → Step s s'
  | unpause (s s' : State) (ctx : Ctx) :
      unpause s ctx = Except.ok s' → Step s s'
  | extend (s s' : State) (ctx : Ctx) (n : Nat) :
      extend_ping_duration s ctx n = Except.ok s' → Step s s'

/-- States reachable after initialization: a successful `init` followed by
any sequence of committed endpoint calls. -/
inductive Reachable : State → Prop
  | init (ctx : Ctx) (a d : Nat) (t : Option Nat) (s : State) :
      init ctx a d t = Except.ok s → Reachable s
  | step (s s' : State) : Reachable s → Step s s' → Reachable s'

/-
Helper lemmas: success-branch characterizations of the endpoints, shared
by several of the claim theorems below.
-/

/-- Stored value of the caller's ledger slot after a successful
`extend_ping_duration` call: the current pong-enable timestamp plus the
extension (u64 addition), as the source stores it. -/
def extendedStoredTimestamp (s : State) (ctx : Ctx) (n : Nat) : Nat :=
  (get_pong_enable_timestamp s ctx.caller + n) % u64Mod

theorem ping_ok_iff (s : State) (ctx : Ctx) (s1 : State) (ops : List Op) :
    ping s ctx = Except.ok (s1, ops) ↔
      s.paused = false ∧ ctx.paymentToken = s.acceptedPaymentTokenId ∧
      ctx.paymentAmount = s.pingAmount ∧ did_user_ping s ctx.caller = false ∧
      s1 = runOps s (pingOps ctx) ∧ ops = pingOps ctx := by
  constructor
  · intro h
    unfold ping at h
    split_ifs at h with h1 h2 h3 h4
    injection h with h
    injection h with ha hb
    exact ⟨by simpa using h1, by simpa using h2, by simpa using h3,
      by simpa using h4, ha.symm, hb.symm⟩
  · rintro ⟨hp, ht, ha, hd, hs, ho⟩
    subst hs
    subst ho
    simp [ping, hp, ht, ha, hd]

theorem pong_ok_iff (s : State) (ctx : Ctx) (s1 : State) (ops : List Op) :
    pong s ctx = Except.ok (s1, ops) ↔
      s.paused = false ∧ did_user_ping s ctx.caller = true ∧
      ctx.blockTimestamp ≥ get_pong_enable_timestamp s ctx.caller ∧
      s1 = runOps s (pongOps s ctx) ∧ ops = pongOps s ctx := by
  constructor
  · intro h
    unfold pong at h
    split_ifs at h with h1 h2 h3
    injection h with h
    injection h with ha hb
    exact ⟨by simpa using h1, by simpa using h2, by simpa using h3,
      ha.symm, hb.symm⟩
  · rintro ⟨hp, hd, hge, hs, ho⟩
    subst hs
    subst ho
    simp [pong, hp, hd, hge, ge_iff_le]

theorem upgrade_ok_iff (s : State) (ctx : Ctx) (a d : Nat) (s1 : State) :
    upgrade s ctx a d = Except.ok s1 ↔
      ctx.caller = s.owner ∧ 0 < a ∧ 0 < d ∧
      s1 = { s with pingAmount := a, durationInSeconds := d } := by
  constructor
  · intro h
    unfold upgrade at h
    split_ifs at h with h1 h2 h3
    injection h with h
    exact ⟨by simpa using h1, by simpa using h2, by simpa using h3, h.symm⟩
  · rintro ⟨hc, ha, hd, hs⟩
    subst hs
    simp [upgrade, hc, ha, hd]

theorem pause_ok_iff (s : State) (ctx : Ctx) (s1 : State) :
    pause s ctx = Except.ok s1 ↔
      ctx.caller = s.owner ∧ s1 = { s with paused := true } := by
  constructor
  · intro h
    unfold pause at h
    split_ifs at h with h1
    injection h with h
    exact ⟨by simpa using h1, h.symm⟩
  · rintro ⟨hc, hs⟩
    subst hs
    simp [pause, hc]

theorem unpause_ok_iff (s : State) (ctx : Ctx) (s1 : State) :
    unpause s ctx = Except.ok s1 ↔
      ctx.caller = s.owner ∧ s1 = { s with paused := false } := by
  constructor
  · intro h
    unfold unpause at h
    split_ifs at h with h1
    injection h with h
    exact ⟨by simpa using h1, h.symm⟩
  · rintro ⟨hc, hs⟩
    subst hs
    simp [unpause, hc]

theorem extend_ok_iff (s : State) (ctx : Ctx) (n : Nat) (s1 : State) :
    extend_ping_duration s ctx n = Except.ok s1 ↔
      s.paused = false ∧ did_user_ping s ctx.caller = true ∧ 0 < n ∧
      s1 = { s with userPingTimestamp := setLockEntry s.userPingTimestamp ctx.caller (extendedStoredTimestamp s ctx n) } := by
  constructor
  · intro h
    unfold extend_ping_duration at h
    split_ifs at h with h1 h2 h3
    injection h with h
    exact ⟨by simpa using h1, by simpa using h2, by simpa using h3,
      by rw [h.symm]; rfl⟩
  · rintro ⟨hp, hd, hn, hs⟩
    subst hs
    simp [extend_ping_duration, extendedStoredTimestamp, hp, hd, hn]

theorem runOps_pingOps_fields (s : State) (ctx : Ctx) :
    (runOps s (pingOps ctx)).acceptedPaymentTokenId = s.acceptedPaymentTokenId ∧
    (runOps s (pingOps ctx)).pingAmount = s.pingAmount ∧
    (runOps s (pingOps ctx)).durationInSeconds = s.durationInSeconds ∧
    (runOps s (pingOps ctx)).paused = s.paused ∧
    (runOps s (pingOps ctx)).owner = s.owner ∧
    (runOps s (pingOps ctx)).userPingTimestamp =
      setLockEntry s.userPingTimestamp ctx.caller ctx.blockTimestamp := by
  simp [runOps, pingOps, applyOp]

theorem runOps_pongOps_fields (s : State) (ctx : Ctx) :
    (runOps s (pongOps s ctx)).acceptedPaymentTokenId = s.acceptedPaymentTokenId ∧
    (runOps s (pongOps s ctx)).pingAmount = s.pingAmount ∧
    (runOps s (pongOps s ctx)).durationInSeconds = s.durationInSeconds ∧
    (runOps s (pongOps s ctx)).paused = s.paused ∧
    (runOps s (pongOps s ctx)).owner = s.owner ∧
    (runOps s (pongOps s ctx)).userPingTimestamp =
      clearLockEntry s.userPingTimestamp ctx.caller := by
  simp [runOps, pongOps, applyOp]

/-
Claim theorems.
-/

/-- Concrete scenario for claim C1: asset 5, required amount 100, duration
3600 seconds, party 7 pinged at time 1000 (so its eligible time is 4600),
contract unpaused. -/
def C1state : State :=
  { acceptedPaymentTokenId := 5
    pingAmount := 100
    durationInSeconds := 3600
    userPingTimestamp := fun x => if x = 7 then some 1000 else none
    paused := false
    owner := 1 }

/-- Call context for claim C1: party 7 calls at time 2000. -/
def C1ctx : Ctx :=
  { caller := 7, blockTimestamp := 2000, paymentToken := 5, paymentAmount := 100 }

/-- Claim C1: evaluation of `extend_ping_duration` at a concrete input. With an
active lock whose eligible time is E = 4600 and duration D = 3600,
`extend_ping_duration 10` succeeds but stores E + 10 = 4610 as the new ping
timestamp, so the new eligible time is E + 10 + D = 8210, not the E + 10 =
4610 the claim requires; `extend_ping_duration 0` is rejected with the
non-zero-duration condition (error code 9), as the claim states. -/
theorem C1_extend_adds_duration_on_top :
    extend_ping_duration C1state C1ctx 10 =
      Except.ok { C1state with
        userPingTimestamp := setLockEntry C1state.userPingTimestamp 7 4610 } ∧
    get_pong_enable_timestamp C1state 7 = 4600 ∧
    get_pong_enable_timestamp { C1state with
        userPingTimestamp := setLockEntry C1state.userPingTimestamp 7 4610 } 7 = 8210 ∧
    (8210 : Nat) ≠ 4600 + 10 ∧
    extend_ping_duration C1state C1ctx 0 = Except.error (SCError.Custom 9) :=
  ⟨rfl, by decide, by decide, by decide, rfl⟩

/-- Claim C2: in every execution of `pong` that reaches the payout, the effect
list contains the ledger clear strictly before the asset transfer, and at
the moment any transfer is performed the caller's ledger entry is already
gone from the intermediate state. -/
theorem C2_clear_before_transfer (s : State) (ctx : Ctx) (s1 : State)
    (ops : List Op) (h : pong s ctx = Except.ok (s1, ops)) :
    (∃ i j : Nat, i < j ∧ ops.get? i = some (Op.clearLock ctx.caller) ∧
      (∃ tok amt : Nat, ops.get? j = some (Op.transfer ctx.caller tok 0 amt))) ∧
    (∀ (j dest tok n amt : Nat),
      ops.get? j = some (Op.transfer dest tok n amt) →
      did_user_ping (runOps s (ops.take j)) ctx.caller = false) := by
  obtain ⟨hp, hd, hge, hs, ho⟩ := (pong_ok_iff s ctx s1 ops).mp h
  subst ho
  constructor
  · refine ⟨0, 1, by omega, ?_, ?_⟩
    · simp [pongOps]
    · exact ⟨(applyOp s (Op.clearLock ctx.caller)).acceptedPaymentTokenId,
        (applyOp s (Op.clearLock ctx.caller)).pingAmount, by simp [pongOps]⟩
  · intro j dest tok n amt hj
    match j with
    | 0 => simp [pongOps] at hj
    | 1 => simp [pongOps, runOps, applyOp, did_user_ping, clearLockEntry]
    | 2 => simp [pongOps] at hj
    | (k + 3) => simp [pongOps] at hj

/-- Concrete state for the C2 witness: party 9 pinged at time 100 with
duration 600, contract unpaused. -/
def C2s : State :=
  { acceptedPaymentTokenId := 3
    pingAmount := 50
    durationInSeconds := 600
    userPingTimestamp := fun x => if x = 9 then some 100 else none
    paused := false
    owner := 1 }

/-- Call context for the C2 witness: party 9 calls `pong` at time 700. -/
def C2ctx : Ctx :=
  { caller := 9, blockTimestamp := 700, paymentToken := 3, paymentAmount := 50 }

/-- Witness for C2 at a concrete successful `pong` call. -/
theorem C2_clear_before_transfer_witness :
    (∃ i j : Nat, i < j ∧
      (pongOps C2s C2ctx).get? i = some (Op.clearLock C2ctx.caller) ∧
      (∃ tok amt : Nat,
        (pongOps C2s C2ctx).get? j = some (Op.transfer C2ctx.caller tok 0 amt))) ∧
    (∀ (j dest tok n amt : Nat),
      (pongOps C2s C2ctx).get? j = some (Op.transfer dest tok n amt) →
      did_user_ping (runOps C2s ((pongOps C2s C2ctx).take j)) C2ctx.caller = false) :=
  C2_clear_before_transfer C2s C2ctx (runOps C2s (pongOps C2s C2ctx))
    (pongOps C2s C2ctx) rfl

/-- Claim C3: round trip. A party with no active lock deposits at time T while
the duration is D (valid payment, unpaused); then a `pong` by the same
party at any time ≥ T + D succeeds, transfers exactly the configured
amount of the configured asset to the party, leaves the party with no
active lock, and a second `pong` without a new deposit is rejected with
`NoPingFound`. -/
theorem C3_round_trip (s : State) (ctx ctx2 : Ctx)
    (hp : s.paused = false)
    (htok : ctx.paymentToken = s.acceptedPaymentTokenId)
    (hamt : ctx.paymentAmount = s.pingAmount)
    (hno : did_user_ping s ctx.caller = false)
    (hc2 : ctx2.caller = ctx.caller)
    (hov : ctx.blockTimestamp + s.durationInSeconds < u64Mod)
    (hlate : ctx2.blockTimestamp ≥ ctx.blockTimestamp + s.durationInSeconds) :
    ∃ s1 s2 : State, ∃ ops1 ops2 : List Op,
      ping s ctx = Except.ok (s1, ops1) ∧
      pong s1 ctx2 = Except.ok (s2, ops2) ∧
      transfersOf ops2 =
        [(ctx2.caller, get_accepted_payment_token s, 0, get_ping_amount s)] ∧
      did_user_ping s2 ctx.caller = false ∧
      (∀ ctx3 : Ctx, ctx3.caller = ctx.caller →
        pong s2 ctx3 = Except.error PingPongError.NoPingFound.toSCError) := by
  refine ⟨runOps s (pingOps ctx),
    runOps (runOps s (pingOps ctx)) (pongOps (runOps s (pingOps ctx)) ctx2),
    pingOps ctx, pongOps (runOps s (pingOps ctx)) ctx2, ?_, ?_, ?_, ?_, ?_⟩
  · exact (ping_ok_iff s ctx _ _).mpr ⟨hp, htok, hamt, hno, rfl, rfl⟩
  · refine (pong_ok_iff _ ctx2 _ _).mpr ⟨?_, ?_, ?_, rfl, rfl⟩
    · simp [runOps, pingOps, applyOp, hp]
    · simp [runOps, pingOps, applyOp, did_user_ping, setLockEntry, hc2]
    · simp [runOps, pingOps, applyOp, get_pong_enable_timestamp, did_user_ping,
        setLockEntry, hc2]
      rw [Nat.mod_eq_of_lt hov]
      exact hlate
  · simp [pongOps, transfersOf, runOps, pingOps, applyOp,
      get_accepted_payment_token, get_ping_amount]
  · simp [runOps, pongOps, pingOps, applyOp, did_user_ping, clearLockEntry,
      setLockEntry, hc2]
  · intro ctx3 hc3
    have hpz : (runOps (runOps s (pingOps ctx))
        (pongOps (runOps s (pingOps ctx)) ctx2)).paused = false := by
      simp [runOps, pongOps, pingOps, applyOp, hp]
    have hdz : did_user_ping (runOps (runOps s (pingOps ctx))
        (pongOps (runOps s (pingOps ctx)) ctx2)) ctx3.caller = false := by
      simp [runOps, pongOps, pingOps, applyOp, did_user_ping, clearLockEntry,
        setLockEntry, hc2, hc3]
    simp [pong, hpz, hdz]

/-- Concrete state for the C3 witness: asset 4, amount 100, duration 3600,
empty ledger, unpaused. -/
def C3s : State :=
  { acceptedPaymentTokenId := 4
    pingAmount := 100
    durationInSeconds := 3600
    userPingTimestamp := fun _ => none
    paused := false
    owner := 1 }

/-- Deposit context for the C3 witness: party 8 pays (4, 100) at time 1000. -/
def C3ctx : Ctx :=
  { caller := 8, blockTimestamp := 1000, paymentToken := 4, paymentAmount := 100 }

/-- Withdraw context for the C3 witness: party 8 calls at time 4600. -/
def C3ctx2 : Ctx :=
  { caller := 8, blockTimestamp := 4600, paymentToken := 4, paymentAmount := 0 }

/-- Witness for C3 at a concrete deposit-then-withdraw scenario. -/
theorem C3_round_trip_witness :
    ∃ s1 s2 : State, ∃ ops1 ops2 : List Op,
      ping C3s C3ctx = Except.ok (s1, ops1) ∧
      pong s1 C3ctx2 = Except.ok (s2, ops2) ∧
      transfersOf ops2 =
        [(C3ctx2.caller, get_accepted_payment_token C3s, 0, get_ping_amount C3s)] ∧
      did_user_ping s2 C3ctx.caller = false ∧
      (∀ ctx3 : Ctx, ctx3.caller = C3ctx.caller →
        pong s2 ctx3 = Except.error PingPongError.NoPingFound.toSCError) :=
  C3_round_trip C3s C3ctx C3ctx2 rfl rfl rfl rfl rfl (by decide) (by decide)

/-- Claim C4: for every party the has-active-lock view is true exactly when the
party's ledger entry exists, and immediately after a successful `ping` at
logical time `now` the caller has an active lock whose eligible time is
`now + lockDuration()` (no u64 overflow). -/
theorem C4_lock_iff_and_ping_postcondition (s0 : State) (P : Nat) (s : State)
    (ctx : Ctx) (s1 : State) (ops : List Op)
    (hping : ping s ctx = Except.ok (s1, ops))
    (hov : ctx.blockTimestamp + get_duration_timestamp s1 < u64Mod) :
    (did_user_ping s0 P = true ↔ s0.userPingTimestamp P ≠ none) ∧
    did_user_ping s1 ctx.caller = true ∧
    get_pong_enable_timestamp s1 ctx.caller =
      ctx.blockTimestamp + get_duration_timestamp s1 := by
  obtain ⟨hp, ht, ha, hd, hs, ho⟩ := (ping_ok_iff s ctx s1 ops).mp hping
  subst hs
  simp only [get_duration_timestamp, runOps, pingOps, applyOp] at hov
  refine ⟨?_, ?_, ?_⟩
  · simp [did_user_ping, Option.isSome_iff_ne_none]
  · simp [runOps, pingOps, applyOp, did_user_ping, setLockEntry]
  · simp [runOps, pingOps, applyOp, get_pong_enable_timestamp, did_user_ping,
      setLockEntry, get_duration_timestamp]
    simpa using Nat.mod_eq_of_lt (by simpa using hov)

/-- Concrete state for the C4 witness: empty ledger, unpaused. -/
def C4s : State :=
  { acceptedPaymentTokenId := 2
    pingAmount := 75
    durationInSeconds := 500
    userPingTimestamp := fun _ => none
    paused := false
    owner := 1 }

/-- Deposit context for the C4 witness: party 6 pays (2, 75) at time 900. -/
def C4ctx : Ctx :=
  { caller := 6, blockTimestamp := 900, paymentToken := 2, paymentAmount := 75 }

/-- Witness for C4 at a concrete state and deposit. -/
theorem C4_lock_iff_and_ping_postcondition_witness :
    (did_user_ping C4s 6 = true ↔ C4s.userPingTimestamp 6 ≠ none) ∧
    did_user_ping (runOps C4s (pingOps C4ctx)) C4ctx.caller = true ∧
    get_pong_enable_timestamp (runOps C4s (pingOps C4ctx)) C4ctx.caller =
      C4ctx.blockTimestamp + get_duration_timestamp (runOps C4s (pingOps C4ctx)) :=
  C4_lock_iff_and_ping_postcondition C4s 6 C4s C4ctx (runOps C4s (pingOps C4ctx))
    (pingOps C4ctx) rfl (by decide)

/-- Claim C5: while the contract is paused, `ping`, `pong` and
`extend_ping_duration` are rejected with the contract-paused condition
(error code 8) regardless of every other input or precondition (so the
pause gate is evaluated before any other validation, and the rejection
commits no state change); `pause` and `unpause` behave identically
whatever the pause flag holds, and every read-only view other than the
pause flag itself returns a value independent of the pause flag. -/
theorem C5_pause_gate (s : State) (hpz : s.paused = true) :
    (∀ ctx : Ctx, ping s ctx = Except.error (SCError.Custom 8)) ∧
    (∀ ctx : Ctx, pong s ctx = Except.error (SCError.Custom 8)) ∧
    (∀ (ctx : Ctx) (n : Nat),
      extend_ping_duration s ctx n = Except.error (SCError.Custom 8)) ∧
    (∀ (b : Bool) (ctx : Ctx), pause { s with paused := b } ctx =
      if ctx.caller = s.owner then Except.ok { s with paused := true }
      else Except.error PingPongError.OnlyOwnerCanPerformThisAction.toSCError) ∧
    (∀ (b : Bool) (ctx : Ctx), unpause { s with paused := b } ctx =
      if ctx.caller = s.owner then Except.ok { s with paused := false }
      else Except.error PingPongError.OnlyOwnerCanPerformThisAction.toSCError) ∧
    (∀ (b : Bool) (a now : Nat),
      did_user_ping { s with paused := b } a = did_user_ping s a ∧
      get_pong_enable_timestamp { s with paused := b } a =
        get_pong_enable_timestamp s a ∧
      get_time_to_pong { s with paused := b } now a = get_time_to_pong s now a ∧
      get_user_ping_timestamp { s with paused := b } a =
        get_user_ping_timestamp s a ∧
      get_accepted_payment_token { s with paused := b } =
        get_accepted_payment_token s ∧
      get_ping_amount { s with paused := b } = get_ping_amount s ∧
      get_duration_timestamp { s with paused := b } = get_duration_timestamp s ∧
      get_owner { s with paused := b } = get_owner s ∧
      get_paused { s with paused := b } = b) := by
  refine ⟨?_, ?_, ?_, ?_, ?_, ?_⟩
  · intro ctx
    simp [ping, hpz]
  · intro ctx
    simp [pong, hpz]
  · intro ctx n
    simp [extend_ping_duration, hpz]
  · intro b ctx
    by_cases hc : ctx.caller = s.owner <;> simp [pause, hc]
  · intro b ctx
    by_cases hc : ctx.caller = s.owner <;> simp [unpause, hc]
  · intro b a now
    refine ⟨rfl, rfl, rfl, rfl, rfl, rfl, rfl, rfl, rfl⟩

/-- Concrete paused state for the C5 witness. -/
def C5s : State :=
  { acceptedPaymentTokenId := 4
    pingAmount := 100
    durationInSeconds := 3600
    userPingTimestamp := fun x => if x = 7 then some 1000 else none
    paused := true
    owner := 1 }

/-- Call context for the C5 witness: a valid payment by party 7, which is
nevertheless rejected because the contract is paused. -/
def C5ctx : Ctx :=
  { caller := 7, blockTimestamp := 9999, paymentToken := 4, paymentAmount := 100 }

/-- Witness for C5 at a concrete paused state: all three gated endpoints
are rejected with the contract-paused condition. -/
theorem C5_pause_gate_witness :
    ping C5s C5ctx = Except.error (SCError.Custom 8) ∧
    pong C5s C5ctx = Except.error (SCError.Custom 8) ∧
    extend_ping_duration C5s C5ctx 10 = Except.error (SCError.Custom 8) :=
  ⟨(C5_pause_gate C5s rfl).1 C5ctx, (C5_pause_gate C5s rfl).2.1 C5ctx,
    (C5_pause_gate C5s rfl).2.2.1 C5ctx 10⟩

/-- Claim C6: `ping` checks its preconditions in exactly the source order —
pause gate, then payment token, then payment amount, then no active lock —
the first failing check determines the error, and when all pass the
deposit is recorded. A failing call is a full abort with no effect. -/
theorem C6_ping_check_order (s : State) (ctx : Ctx) :
    (s.paused = true → ping s ctx = Except.error (SCError.Custom 8)) ∧
    (s.paused = false → ¬ ctx.paymentToken = s.acceptedPaymentTokenId →
      ping s ctx = Except.error PingPongError.InvalidPaymentToken.toSCError) ∧
    (s.paused = false → ctx.paymentToken = s.acceptedPaymentTokenId →
      ¬ ctx.paymentAmount = s.pingAmount →
      ping s ctx = Except.error PingPongError.IncorrectPingAmount.toSCError) ∧
    (s.paused = false → ctx.paymentToken = s.acceptedPaymentTokenId →
      ctx.paymentAmount = s.pingAmount → did_user_ping s ctx.caller = true →
      ping s ctx = Except.error PingPongError.AlreadyPinged.toSCError) ∧
    (s.paused = false → ctx.paymentToken = s.acceptedPaymentTokenId →
      ctx.paymentAmount = s.pingAmount → did_user_ping s ctx.caller = false →
      ping s ctx = Except.ok (runOps s (pingOps ctx), pingOps ctx)) := by
  refine ⟨?_, ?_, ?_, ?_, ?_⟩
  · intro h1
    simp [ping, h1]
  · intro h1 h2
    simp [ping, h1, h2]
  · intro h1 h2 h3
    simp [ping, h1, h2, h3]
  · intro h1 h2 h3 h4
    simp [ping, h1, h2, h3, h4]
  · intro h1 h2 h3 h4
    exact (ping_ok_iff s ctx _ _).mpr ⟨h1, h2, h3, h4, rfl, rfl⟩

/-- Concrete state for the C6 witness: empty ledger, unpaused. -/
def C6s : State :=
  { acceptedPaymentTokenId := 4
    pingAmount := 100
    durationInSeconds := 3600
    userPingTimestamp := fun _ => none
    paused := false
    owner := 1 }

/-- Call context for the C6 witness: party 5 pays (4, 100). -/
def C6ctx : Ctx :=
  { caller := 5, blockTimestamp := 1234, paymentToken := 4, paymentAmount := 100 }

/-- Witness for C6: with every check passing at a concrete input, `ping`
succeeds and records the deposit. -/
theorem C6_ping_check_order_witness :
    ping C6s C6ctx = Except.ok (runOps C6s (pingOps C6ctx), pingOps C6ctx) :=
  (C6_ping_check_order C6s C6ctx).2.2.2.2 rfl rfl rfl rfl

/-- Claim C7: with the contract unpaused, `pong` by a party with no active lock
is rejected with `NoPingFound`, and `pong` before the eligible time
(stored timestamp plus configured duration, no u64 overflow) is rejected
with `CannotPongBeforeDeadline`; both rejections are full aborts, so no
transfer happens and the ledger is unchanged. -/
theorem C7_pong_failure_modes (s : State) (ctx : Ctx) (ts : Nat)
    (hp : s.paused = false) :
    (did_user_ping s ctx.caller = false →
      pong s ctx = Except.error PingPongError.NoPingFound.toSCError) ∧
    (s.userPingTimestamp ctx.caller = some ts →
      ts + s.durationInSeconds < u64Mod →
      ctx.blockTimestamp < ts + s.durationInSeconds →
      pong s ctx = Except.error PingPongError.CannotPongBeforeDeadline.toSCError) := by
  constructor
  · intro hd
    simp [pong, hp, hd]
  · intro hts hov hlt
    have hd : did_user_ping s ctx.caller = true := by
      simp [did_user_ping, hts]
    have hen : get_pong_enable_timestamp s ctx.caller = ts + s.durationInSeconds := by
      simp [get_pong_enable_timestamp, did_user_ping, hts]
      exact Nat.mod_eq_of_lt hov
    simp [pong, hp, hd, hen, ge_iff_le, Nat.not_le, hlt]

/-- Concrete state for the C7 witness: party 7 pinged at time 1000 with
duration 3600, unpaused. -/
def C7s : State :=
  { acceptedPaymentTokenId := 4
    pingAmount := 100
    durationInSeconds := 3600
    userPingTimestamp := fun x => if x = 7 then some 1000 else none
    paused := false
    owner := 1 }

/-- Context for the C7 witness: party 7 calls `pong` too early, at time
4000 < 4600. -/
def C7ctxEarly : Ctx :=
  { caller := 7, blockTimestamp := 4000, paymentToken := 4, paymentAmount := 0 }

/-- Context for the C7 witness: party 8, which holds no lock, calls
`pong`. -/
def C7ctxNoLock : Ctx :=
  { caller := 8, blockTimestamp := 4000, paymentToken := 4, paymentAmount := 0 }

/-- Witness for C7 at concrete inputs: early withdrawal and
no-lock withdrawal are rejected with the respective errors. -/
theorem C7_pong_failure_modes_witness :
    pong C7s C7ctxEarly = Except.error PingPongError.CannotPongBeforeDeadline.toSCError ∧
    pong C7s C7ctxNoLock = Except.error PingPongError.NoPingFound.toSCError :=
  ⟨(C7_pong_failure_modes C7s C7ctxEarly 1000 rfl).2 rfl (by decide) (by decide),
    (C7_pong_failure_modes C7s C7ctxNoLock 0 rfl).1 rfl⟩

theorem step_preserves_config_pos (s s' : State) (h : Step s s')
    (hinv : 0 < s.pingAmount ∧ 0 < s.durationInSeconds) :
    0 < s'.pingAmount ∧ 0 < s'.durationInSeconds := by
  cases h with
  | upgrade ctx a d h =>
      obtain ⟨-, ha, hd, hs⟩ := (upgrade_ok_iff s ctx a d s').mp h
      subst hs
      exact ⟨ha, hd⟩
  | ping ctx ops h =>
      obtain ⟨-, -, -, -, hs, -⟩ := (ping_ok_iff s ctx s' ops).mp h
      subst hs
      simpa [runOps, pingOps, applyOp] using hinv
  | pong ctx ops h =>
      obtain ⟨-, -, -, hs, -⟩ := (pong_ok_iff s ctx s' ops).mp h
      subst hs
      simpa [runOps, pongOps, applyOp] using hinv
  | pause ctx h =>
      obtain ⟨-, hs⟩ := (pause_ok_iff s ctx s').mp h
      subst hs
      simpa using hinv
  | unpause ctx h =>
      obtain ⟨-, hs⟩ := (unpause_ok_iff s ctx s').mp h
      subst hs
      simpa using hinv
  | extend ctx n h =>
      obtain ⟨-, -, -, hs⟩ := (extend_ok_iff s ctx n s').mp h
      subst hs
      simpa using hinv

/-- Claim C8: `deposit_amount > 0 ∧ lock_duration_seconds > 0` holds in every
state reachable after a successful `init`; both `init` and `upgrade`
reject a zero amount with `PingAmountCannotBeZero` and a zero duration
with `DurationCannotBeZero` (full aborts, so no partial write survives),
and no other endpoint writes these two fields. -/
theorem C8_config_invariant :
    (∀ s : State, Reachable s →
      0 < get_ping_amount s ∧ 0 < get_duration_timestamp s) ∧
    (∀ (ctx : Ctx) (d : Nat) (t : Option Nat),
      init ctx 0 d t = Except.error PingPongError.PingAmountCannotBeZero.toSCError) ∧
    (∀ (ctx : Ctx) (a : Nat) (t : Option Nat), 0 < a →
      init ctx a 0 t = Except.error PingPongError.DurationCannotBeZero.toSCError) ∧
    (∀ (s : State) (ctx : Ctx) (d : Nat), ctx.caller = s.owner →
      upgrade s ctx 0 d = Except.error PingPongError.PingAmountCannotBeZero.toSCError) ∧
    (∀ (s : State) (ctx : Ctx) (a : Nat), ctx.caller = s.owner → 0 < a →
      upgrade s ctx a 0 = Except.error PingPongError.DurationCannotBeZero.toSCError) := by
  refine ⟨?_, ?_, ?_, ?_, ?_⟩
  · intro s h
    induction h with
    | init ctx a d t s h =>
        unfold init at h
        split_ifs at h with h1 h2
        injection h with h
        rw [← h]
        exact ⟨by simpa [get_ping_amount] using h1,
          by simpa [get_duration_timestamp] using h2⟩
    | step s s' hr hstep ih =>
        exact step_preserves_config_pos s s' hstep ih
  · intro ctx d t
    simp [init]
  · intro ctx a t ha
    simp [init, ha]
  · intro s ctx d hc
    simp [upgrade, hc]
  · intro s ctx a hc ha
    simp [upgrade, hc, ha]

/-- Deployment context for the C8 witness: party 1 initializes. -/
def C8ctx : Ctx :=
  { caller := 1, blockTimestamp := 0, paymentToken := 0, paymentAmount := 0 }

/-- State produced by a successful `init` with amount 100 and duration
3600 in the C8 witness. -/
def C8s : State :=
  { acceptedPaymentTokenId := egld
    pingAmount := 100
    durationInSeconds := 3600
    userPingTimestamp := fun _ => none
    paused := false
    owner := 1 }

/-- Witness for C8 at concrete inputs: the invariant holds in a reachable
state, and the four zero-parameter rejections fire. -/
theorem C8_config_invariant_witness :
    (0 < get_ping_amount C8s ∧ 0 < get_duration_timestamp C8s) ∧
    init C8ctx 0 3600 none =
      Except.error PingPongError.PingAmountCannotBeZero.toSCError ∧
    init C8ctx 100 0 none =
      Except.error PingPongError.DurationCannotBeZero.toSCError ∧
    Reachable C8s :=
  ⟨C8_config_invariant.1 C8s (Reachable.init C8ctx 100 3600 none C8s rfl),
    C8_config_invariant.2.1 C8ctx 3600 none,
    C8_config_invariant.2.2.1 C8ctx 100 none (by decide),
    Reachable.init C8ctx 100 3600 none C8s rfl⟩

/-- Claim C9: each of `upgrade` (retune), `pause` and `unpause` (resume) invoked
by a caller other than the recorded owner is rejected with
`OnlyOwnerCanPerformThisAction`; every rejection is a full abort, so the
whole state is unchanged. -/
theorem C9_owner_exclusive (s : State) (ctx : Ctx) (a d : Nat)
    (h : ¬ ctx.caller = s.owner) :
    upgrade s ctx a d =
      Except.error PingPongError.OnlyOwnerCanPerformThisAction.toSCError ∧
    pause s ctx =
      Except.error PingPongError.OnlyOwnerCanPerformThisAction.toSCError ∧
    unpause s ctx =
      Except.error PingPongError.OnlyOwnerCanPerformThisAction.toSCError :=
  ⟨by simp [upgrade, h], by simp [pause, h], by simp [unpause, h]⟩

/-- Concrete state for the C9 witness, owned by party 1. -/
def C9s : State :=
  { acceptedPaymentTokenId := 4
    pingAmount := 100
    durationInSeconds := 3600
    userPingTimestamp := fun _ => none
    paused := false
    owner := 1 }

/-- Call context for the C9 witness: non-owner party 2 calls. -/
def C9ctx : Ctx :=
  { caller := 2, blockTimestamp := 50, paymentToken := 4, paymentAmount := 100 }

/-- Witness for C9: the three administrative endpoints reject the concrete
non-owner caller. -/
theorem C9_owner_exclusive_witness :
    upgrade C9s C9ctx 5 5 =
      Except.error PingPongError.OnlyOwnerCanPerformThisAction.toSCError ∧
    pause C9s C9ctx =
      Except.error PingPongError.OnlyOwnerCanPerformThisAction.toSCError ∧
    unpause C9s C9ctx =
      Except.error PingPongError.OnlyOwnerCanPerformThisAction.toSCError :=
  C9_owner_exclusive C9s C9ctx 5 5 (by decide)

/-- Claim C10: a successful `pong` pays out the deposit amount and asset read
from the configuration at withdraw time: after the owner retunes the
amount to `a2`, a party that deposited under the old amount receives
exactly `a2` of the (unchanged) configured asset. -/
theorem C10_pays_retuned_amount (s s1 : State) (ctxO ctx2 : Ctx)
    (a2 d2 : Nat) (hup : upgrade s ctxO a2 d2 = Except.ok s1)
    (s2 : State) (ops : List Op)
    (hpong : pong s1 ctx2 = Except.ok (s2, ops)) :
    get_ping_amount s1 = a2 ∧
    transfersOf ops = [(ctx2.caller, get_accepted_payment_token s, 0, a2)] := by
  obtain ⟨-, -, -, hs1⟩ := (upgrade_ok_iff s ctxO a2 d2 s1).mp hup
  obtain ⟨-, -, -, -, hops⟩ := (pong_ok_iff s1 ctx2 s2 ops).mp hpong
  subst hops
  subst hs1
  exact ⟨rfl, by simp [pongOps, transfersOf, applyOp, get_accepted_payment_token]⟩

/-- Concrete state for the C10 witness: party 7 deposited at time 1000
while the amount was 100. -/
def C10s : State :=
  { acceptedPaymentTokenId := 4
    pingAmount := 100
    durationInSeconds := 3600
    userPingTimestamp := fun x => if x = 7 then some 1000 else none
    paused := false
    owner := 1 }

/-- Retune context for the C10 witness: the owner (party 1) calls. -/
def C10ctxO : Ctx :=
  { caller := 1, blockTimestamp := 1500, paymentToken := 0, paymentAmount := 0 }

/-- State after the C10 retune to amount 250, duration 7200. -/
def C10s1 : State :=
  { C10s with pingAmount := 250, durationInSeconds := 7200 }

/-- Withdraw context for the C10 witness: party 7 calls at time 10000. -/
def C10ctx2 : Ctx :=
  { caller := 7, blockTimestamp := 10000, paymentToken := 0, paymentAmount := 0 }

/-- Witness for C10: the concrete withdraw after the retune transfers the
retuned amount 250, not the 100 in force at deposit time. -/
theorem C10_pays_retuned_amount_witness :
    get_ping_amount C10s1 = 250 ∧
    transfersOf (pongOps C10s1 C10ctx2) =
      [(C10ctx2.caller, get_accepted_payment_token C10s, 0, 250)] :=
  C10_pays_retuned_amount C10s C10s1 C10ctxO C10ctx2 250 7200 rfl
    (runOps C10s1 (pongOps C10s1 C10ctx2)) (pongOps C10s1 C10ctx2) rfl

end PingPongContract
